import Mathlib

/-!
Verification of the watchdog daemon's reconciliation-and-escalation control
loop (`runDaemonTick`, `executeEscalationAction`, `loadSessions`,
`saveSessions` in the daemon source file).

Times are modelled as natural numbers of milliseconds; the clock is read
once per tick (`TickEnv.now`).  External collaborators (liveness probe,
kill, nudge delivery, triage, the optional observer callback) are modelled
as deterministic functions in a `TickEnv`.  Fallible calls whose failure
the source catches and ignores (`killSession`, `nudgeAgent`) are modelled
by outcome functions that the loop never consults — exactly the semantics
of an empty catch block.  Calls whose failure the source does not catch
(the triage call, the observer callback) are modelled so that a failure
aborts the remainder of the tick, mirroring exception propagation out of
the per-session loop.

Division on `Nat` is floor division; theorems that depend on the nudge
interval assume it positive (its configured default is 60000).
-/

/-- Modelled from the spec: the session lifecycle states consumed by this
loop (`types.ts` is not part of the sources); only `booting`, `working`,
`zombie`, `completed` matter to the loop. -/
inductive SessionState where
  | booting
  | working
  | zombie
  | completed
deriving DecidableEq, Repr

/-- Modelled from the spec: one agent-session record as consumed by the
loop (`types.ts` is not part of the sources; the field list matches the
spec's data model and the test helper `makeSession`).  Timestamps are
milliseconds. -/
structure AgentSession where
  id : String
  agentName : String
  capability : String
  worktreePath : String
  branchName : String
  beadId : String
  tmuxSession : String
  state : SessionState
  pid : Nat
  parentAgent : Option String
  depth : Nat
  startedAt : Nat
  lastActivity : Nat
  escalationLevel : Nat
  stalledSince : Option Nat
deriving DecidableEq, Repr

/-- One of the three verdicts the triage collaborator can return
(the union type in the daemon's `_triage` option). -/
inductive TriageVerdict where
  | retry
  | terminate
  | extend
deriving DecidableEq, Repr

/-- The four actions a health verdict can recommend. -/
inductive HealthAction where
  | none
  | escalate
  | investigate
  | terminate
deriving DecidableEq, Repr

/-- Modelled from the spec: the health verdict passed to the observer
callback — a classification of one session carrying the recommended
action (`types.ts` is not part of the sources). -/
structure HealthCheck where
  agentName : String
  action : HealthAction
deriving DecidableEq, Repr

/-- Modelled from the spec: the health-evaluation policy of `evaluateHealth`
(`health.ts` is not part of the sources).  Zombie: alive means investigate,
dead means none; otherwise dead means terminate; otherwise terminate past
the zombie threshold, escalate past the stale threshold, none when fresh. -/
def healthAction (s : AgentSession) (tmuxAlive : Bool) (staleMs zombieMs now : Nat) :
    HealthAction :=
  if s.state = SessionState.zombie then
    if tmuxAlive then HealthAction.investigate else HealthAction.none
  else if tmuxAlive = false then HealthAction.terminate
  else if zombieMs ≤ now - s.lastActivity then HealthAction.terminate
  else if staleMs ≤ now - s.lastActivity then HealthAction.escalate
  else HealthAction.none

/-- Modelled from the spec: `evaluateHealth` packages the recommended
action into the verdict reported to the observer (`health.ts` is not part
of the sources). -/
def evaluateHealth (s : AgentSession) (tmuxAlive : Bool) (staleMs zombieMs now : Nat) :
    HealthCheck :=
  { agentName := s.agentName, action := healthAction s tmuxAlive staleMs zombieMs now }

/-- Modelled from the spec: `transitionState` moves a session forward only —
a terminate verdict forces zombie, every other action holds the state
(`health.ts` is not part of the sources). -/
def transitionState (st : SessionState) (action : HealthAction) : SessionState :=
  match action with
  | HealthAction.terminate => SessionState.zombie
  | _ => st

/-- Configuration surface of one tick (`DaemonOptions` minus the injected
collaborators; `hasObserver` records whether `onHealthCheck` was passed). -/
structure TickConfig where
  staleMs : Nat
  zombieMs : Nat
  nudgeIntervalMs : Nat
  tier1Enabled : Bool
  hasObserver : Bool
deriving DecidableEq, Repr

/-- The external world one tick observes: the clock, the liveness probe,
the outcomes of the fallible collaborators (kill and nudge outcomes are
never consulted by the loop — their failures are caught and ignored at the
call sites), whether the observer callback returns normally, and the
triage collaborator's verdict or thrown failure. -/
structure TickEnv where
  now : Nat
  alive : String → Bool
  killOk : String → Bool
  nudgeOk : String → Bool
  obsOk : String → Bool
  triage : String → Except Unit TriageVerdict

/-- Log of the collaborator invocations one tick performs, in order:
liveness probes, observer-callback invocations, kill attempts, nudge
deliveries (agent name and message), triage invocations. -/
structure TickTrace where
  probes : List String
  observed : List HealthCheck
  kills : List String
  nudges : List (String × String)
  triages : List String
deriving DecidableEq, Repr

/-- Empty invocation log. -/
def TickTrace.empty : TickTrace :=
  { probes := [], observed := [], kills := [], nudges := [], triages := [] }

/-- Concatenation of two invocation logs. -/
def TickTrace.append (a b : TickTrace) : TickTrace :=
  { probes := a.probes ++ b.probes
    observed := a.observed ++ b.observed
    kills := a.kills ++ b.kills
    nudges := a.nudges ++ b.nudges
    triages := a.triages ++ b.triages }

/-- The stall notice sent by the level-1 nudge (string built at the call
site in `executeEscalationAction`). -/
def stallMessage (agentName : String) : String :=
  "[WATCHDOG] Agent \"" ++ agentName ++
    "\" appears stalled. Please check your current task and report status."

/-- The recovery nudge sent when triage answers retry. -/
def retryMessage : String :=
  "[WATCHDOG] Triage suggests recovery is possible. " ++
    "Please retry your current operation or check for errors."

/-- Result record of `executeEscalationAction`. -/
structure ExecResult where
  terminated : Bool
  stateChanged : Bool
deriving DecidableEq, Repr

/-- The escalation action bound to the session's current escalation level
(`executeEscalationAction`): 0 warns only, 1 nudges (delivery failure
ignored), 2 invokes triage when tier 1 is enabled (a thrown triage failure
propagates as `Except.error`; a terminate verdict kills the live session,
a retry verdict sends a recovery nudge), and every level from 3 up kills
the live session.  Kill failures are ignored at the call sites, so kill
outcomes do not enter the result. -/
def executeEscalationAction (cfg : TickConfig) (env : TickEnv) (s : AgentSession)
    (tmuxAlive : Bool) : Except Unit ExecResult × TickTrace :=
  if s.escalationLevel = 0 then
    (Except.ok { terminated := false, stateChanged := false }, TickTrace.empty)
  else if s.escalationLevel = 1 then
    (Except.ok { terminated := false, stateChanged := false },
      { TickTrace.empty with nudges := [(s.agentName, stallMessage s.agentName)] })
  else if s.escalationLevel = 2 then
    if cfg.tier1Enabled then
      match env.triage s.agentName with
      | Except.error e => (Except.error e, { TickTrace.empty with triages := [s.agentName] })
      | Except.ok TriageVerdict.terminate =>
          (Except.ok { terminated := true, stateChanged := true },
            { TickTrace.empty with
              triages := [s.agentName]
              kills := if tmuxAlive then [s.tmuxSession] else [] })
      | Except.ok TriageVerdict.retry =>
          (Except.ok { terminated := false, stateChanged := false },
            { TickTrace.empty with
              triages := [s.agentName]
              nudges := [(s.agentName, retryMessage)] })
      | Except.ok TriageVerdict.extend =>
          (Except.ok { terminated := false, stateChanged := false },
            { TickTrace.empty with triages := [s.agentName] })
    else
      (Except.ok { terminated := false, stateChanged := false }, TickTrace.empty)
  else
    (Except.ok { terminated := true, stateChanged := true },
      { TickTrace.empty with kills := if tmuxAlive then [s.tmuxSession] else [] })

/-- The raise step of the escalation controller: the expected level is the
elapsed stall time divided by the nudge interval, capped at the maximum
escalation level 3; the stored level is raised to it when it is ahead. -/
def raiseStep (nudgeIntervalMs stalledSinceMs now level : Nat) : Nat :=
  let expected := min ((now - stalledSinceMs) / nudgeIntervalMs) 3
  if level < expected then expected else level

/-- The raise steps of a run of consecutive ticks (at the given tick times)
over one stall episode that began at `stalledSinceMs`, starting from the
level 0 the episode was initialized with. -/
def raiseSeq (nudgeIntervalMs stalledSinceMs : Nat) (tickTimes : List Nat) : Nat :=
  tickTimes.foldl (fun level t => raiseStep nudgeIntervalMs stalledSinceMs t level) 0

/-- Start of a stall episode: when `stalledSince` is null it is set to the
current time and the escalation level is reset to 0 (with the updated
flag); otherwise the session is unchanged. -/
def escalateInit (now : Nat) (s : AgentSession) : AgentSession × Bool :=
  match s.stalledSince with
  | none => ({ s with stalledSince := some now, escalationLevel := 0 }, true)
  | some _ => (s, false)

/-- The in-place raise of the escalation level (with the updated flag). -/
def escalateRaise (nudgeIntervalMs now : Nat) (s : AgentSession) : AgentSession × Bool :=
  let t0 := s.stalledSince.getD now
  let lvl := raiseStep nudgeIntervalMs t0 now s.escalationLevel
  if s.escalationLevel = lvl then (s, false) else ({ s with escalationLevel := lvl }, true)

/-- The session after the stall-episode initialization and the raise step
of one tick. -/
def escalateUpdate (nudgeIntervalMs now : Nat) (s : AgentSession) : AgentSession :=
  (escalateRaise nudgeIntervalMs now (escalateInit now s).1).1

/-- The `updated` contribution of the stall-episode initialization and the
raise step of one tick. -/
def escalateFlags (nudgeIntervalMs now : Nat) (s : AgentSession) : Bool :=
  (escalateInit now s).2 || (escalateRaise nudgeIntervalMs now (escalateInit now s).1).2

/-- Forced termination of a session record: state zombie, escalation
tracking cleared. -/
def terminateSession (s : AgentSession) : AgentSession :=
  { s with state := SessionState.zombie, escalationLevel := 0, stalledSince := none }

/-- Application of `transitionState`, recording whether the state changed
(the `updated` contribution of the transition). -/
def applyTransition (s : AgentSession) (action : HealthAction) : AgentSession × Bool :=
  let newState := transitionState s.state action
  if newState = s.state then (s, false) else ({ s with state := newState }, true)

/-- Outcome of processing one session inside a tick: either the (possibly
mutated) record together with its contribution to the `updated` flag, or
an abort — an exception that escaped the per-session loop. -/
inductive SessRes where
  | ok (s : AgentSession) (upd : Bool)
  | aborted
deriving DecidableEq, Repr

/-- The escalate branch of the tick loop: initialize the stall episode,
raise the escalation level from elapsed time, execute the level's action;
a terminated session is forced to zombie with escalation cleared, a thrown
triage failure aborts. -/
def handleEscalate (cfg : TickConfig) (env : TickEnv) (s : AgentSession) (tmuxAlive : Bool)
    (stateUpd : Bool) : SessRes × TickTrace :=
  let s2 := escalateUpdate cfg.nudgeIntervalMs env.now s
  match executeEscalationAction cfg env s2 tmuxAlive with
  | (Except.error _, tr) => (SessRes.aborted, tr)
  | (Except.ok r, tr) =>
      if r.terminated then (SessRes.ok (terminateSession s2) true, tr)
      else
        (SessRes.ok s2
          (stateUpd || escalateFlags cfg.nudgeIntervalMs env.now s || r.stateChanged), tr)

/-- The per-session body of `runDaemonTick`: completed sessions are skipped
outright; otherwise probe liveness, evaluate health, apply the forward
transition, report to the observer when configured (an observer failure
aborts), then branch on the verdict action — terminate kills the live
session and forces zombie, investigate holds, escalate delegates to the
escalation controller, and none clears a finished stall episode. -/
def processSession (cfg : TickConfig) (env : TickEnv) (session : AgentSession) :
    SessRes × TickTrace :=
  if session.state = SessionState.completed then (SessRes.ok session false, TickTrace.empty)
  else
    let tmuxAlive := env.alive session.tmuxSession
    let check := evaluateHealth session tmuxAlive cfg.staleMs cfg.zombieMs env.now
    let p := applyTransition session check.action
    let tr0 : TickTrace :=
      { probes := [session.tmuxSession],
        observed := if cfg.hasObserver then [check] else [],
        kills := [], nudges := [], triages := [] }
    if cfg.hasObserver && !env.obsOk session.agentName then (SessRes.aborted, tr0)
    else
      match check.action with
      | HealthAction.terminate =>
          (SessRes.ok (terminateSession p.1) true,
            { tr0 with kills := if tmuxAlive then [session.tmuxSession] else [] })
      | HealthAction.investigate => (SessRes.ok p.1 p.2, tr0)
      | HealthAction.escalate =>
          let r := handleEscalate cfg env p.1 tmuxAlive p.2
          (r.1, TickTrace.append tr0 r.2)
      | HealthAction.none =>
          match session.stalledSince with
          | some _ =>
              (SessRes.ok { p.1 with stalledSince := none, escalationLevel := 0 } true, tr0)
          | none => (SessRes.ok p.1 p.2, tr0)

/-- Result of the pass over the whole registry: the session list, the
`updated` flag, the invocation log, and whether the pass ran to completion
(`ok = false` when an exception escaped the loop mid-pass). -/
structure PassResult where
  sessions : List AgentSession
  updated : Bool
  trace : TickTrace
  ok : Bool

/-- The per-session loop of `runDaemonTick` over the loaded registry; an
abort stops the pass, leaving the remaining records unprocessed. -/
def processList (cfg : TickConfig) (env : TickEnv) : List AgentSession → PassResult
  | [] => { sessions := [], updated := false, trace := TickTrace.empty, ok := true }
  | s :: rest =>
      match processSession cfg env s with
      | (SessRes.aborted, tr) =>
          { sessions := s :: rest, updated := false, trace := tr, ok := false }
      | (SessRes.ok s1 u, tr) =>
          let r := processList cfg env rest
          { sessions := s1 :: r.sessions
            updated := u || r.updated
            trace := TickTrace.append tr r.trace
            ok := r.ok }

/-- One record of the on-disk `sessions.json` registry; the escalation
fields may be absent on records created before progressive nudging
(`none` in the outer `Option` models an absent field). -/
structure DiskSession where
  id : String
  agentName : String
  capability : String
  worktreePath : String
  branchName : String
  beadId : String
  tmuxSession : String
  state : SessionState
  pid : Nat
  parentAgent : Option String
  depth : Nat
  startedAt : Nat
  lastActivity : Nat
  escalationLevel : Option Nat
  stalledSince : Option (Option Nat)
deriving DecidableEq, Repr

/-- The per-record backfill of `loadSessions`: absent escalation fields
are filled in as level 0 and not stalled, in memory only. -/
def loadSession (d : DiskSession) : AgentSession :=
  { id := d.id, agentName := d.agentName, capability := d.capability
    worktreePath := d.worktreePath, branchName := d.branchName, beadId := d.beadId
    tmuxSession := d.tmuxSession, state := d.state, pid := d.pid
    parentAgent := d.parentAgent, depth := d.depth, startedAt := d.startedAt
    lastActivity := d.lastActivity
    escalationLevel := d.escalationLevel.getD 0
    stalledSince := d.stalledSince.getD none }

/-- The per-record shape written by `saveSessions`: every field present. -/
def saveSession (s : AgentSession) : DiskSession :=
  { id := s.id, agentName := s.agentName, capability := s.capability
    worktreePath := s.worktreePath, branchName := s.branchName, beadId := s.beadId
    tmuxSession := s.tmuxSession, state := s.state, pid := s.pid
    parentAgent := s.parentAgent, depth := s.depth, startedAt := s.startedAt
    lastActivity := s.lastActivity
    escalationLevel := some s.escalationLevel
    stalledSince := some s.stalledSince }

/-- Result of one `runDaemonTick` invocation against the registry file:
its content after the tick, whether the tick wrote it, whether the tick
ran to completion, and the invocation log. -/
structure TickResult where
  disk : List DiskSession
  wrote : Bool
  ok : Bool
  trace : TickTrace

/-- One daemon tick: load the registry (backfilling legacy records in
memory), run the per-session loop, and persist the full registry exactly
when the loop ran to completion and some record was mutated; otherwise the
file is left untouched. -/
def runDaemonTick (cfg : TickConfig) (env : TickEnv) (disk : List DiskSession) : TickResult :=
  let r := processList cfg env (disk.map loadSession)
  if r.ok && r.updated then
    { disk := r.sessions.map saveSession, wrote := true, ok := true, trace := r.trace }
  else
    { disk := disk, wrote := false, ok := r.ok, trace := r.trace }

/-- Decidable form of the preserved half of the escalation-field
invariant: a session whose `stalledSince` is null has escalation level 0. -/
def stallInv (s : AgentSession) : Bool :=
  if s.stalledSince = none then decide (s.escalationLevel = 0) else true

/-- Stated from the spec's observer contract, for comparison with the
loop's trace: one verdict per non-completed session, in registry order,
none for completed sessions. -/
def specObservedChecks (cfg : TickConfig) (env : TickEnv) (ss : List AgentSession) :
    List HealthCheck :=
  ss.filterMap fun s =>
    if s.state = SessionState.completed then none
    else some (evaluateHealth s (env.alive s.tmuxSession) cfg.staleMs cfg.zombieMs env.now)

/-- Fixture builder: a session record with the opaque passthrough fields
fixed and the fields this loop interprets supplied. -/
def mkSession (name : String) (st : SessionState) (la lvl : Nat) (stalled : Option Nat) :
    AgentSession :=
  { id := name, agentName := name, capability := "builder", worktreePath := "/w",
    branchName := "b", beadId := "t", tmuxSession := "tmux-" ++ name, state := st,
    pid := 1, parentAgent := none, depth := 0, startedAt := 0,
    lastActivity := la, escalationLevel := lvl, stalledSince := stalled }

/-- Fixture builder: a legacy on-disk record missing both escalation fields. -/
def mkLegacy (name : String) (st : SessionState) (la : Nat) : DiskSession :=
  { id := name, agentName := name, capability := "builder", worktreePath := "/w",
    branchName := "b", beadId := "t", tmuxSession := "tmux-" ++ name, state := st,
    pid := 1, parentAgent := none, depth := 0, startedAt := 0,
    lastActivity := la, escalationLevel := none, stalledSince := none }

/-- Fixture: configuration with triage and the observer enabled. -/
def cexCfg : TickConfig :=
  { staleMs := 60000, zombieMs := 600000, nudgeIntervalMs := 60000,
    tier1Enabled := true, hasObserver := true }

/-- Fixture: environment at 150000 ms where every session is alive, the
observer returns normally, and the triage call throws for agent alpha. -/
def cexEnv : TickEnv :=
  { now := 150000, alive := fun _ => true, killOk := fun _ => true,
    nudgeOk := fun _ => true, obsOk := fun _ => true,
    triage := fun n => if n = "alpha" then Except.error () else Except.ok TriageVerdict.extend }

/-- Fixture: session alpha, stalled since 30000 ms (so its level is raised
to 2 at 150000 ms). -/
def cexAlpha : AgentSession := mkSession "alpha" SessionState.working 0 1 (some 30000)

/-- Fixture: registry holding stalled alpha followed by healthy beta. -/
def cexDisk : List DiskSession :=
  [saveSession cexAlpha, saveSession (mkSession "beta" SessionState.working 150000 0 none)]

/-- Fixture: configuration with triage and the observer both disabled. -/
def plainCfg : TickConfig :=
  { staleMs := 60000, zombieMs := 600000, nudgeIntervalMs := 60000,
    tier1Enabled := false, hasObserver := false }

/-- Fixture: environment at 90000 ms, everything alive and well-behaved. -/
def quietEnv : TickEnv :=
  { now := 90000, alive := fun _ => true, killOk := fun _ => true,
    nudgeOk := fun _ => true, obsOk := fun _ => true,
    triage := fun _ => Except.ok TriageVerdict.extend }

/-- Fixture: registry holding one working session stale for 90000 ms that
is not yet marked stalled. -/
def c3Disk : List DiskSession := [saveSession (mkSession "gamma" SessionState.working 0 0 none)]

/-- Fixture: configuration with the observer enabled and triage disabled. -/
def obsCfg : TickConfig :=
  { staleMs := 60000, zombieMs := 600000, nudgeIntervalMs := 60000,
    tier1Enabled := false, hasObserver := true }

/-- Fixture: environment at 700000 ms, everything alive and well-behaved,
so a session silent since 0 is past the zombie threshold. -/
def lateEnv : TickEnv :=
  { now := 700000, alive := fun _ => true, killOk := fun _ => true,
    nudgeOk := fun _ => true, obsOk := fun _ => true,
    triage := fun _ => Except.ok TriageVerdict.extend }

/-- Fixture: working session silent since time 0. -/
def silentS : AgentSession := mkSession "delta" SessionState.working 0 0 none

/-- Fixture: environment at 200000 ms (a session stalled since 0 reaches
escalation level 3 there), everything alive and well-behaved. -/
def levelThreeEnv : TickEnv :=
  { now := 200000, alive := fun _ => true, killOk := fun _ => true,
    nudgeOk := fun _ => true, obsOk := fun _ => true,
    triage := fun _ => Except.ok TriageVerdict.extend }

/-- Fixture: working session stalled since 0, currently at level 1, still
showing activity recent enough to stay below the zombie threshold. -/
def stalledS : AgentSession := mkSession "eps" SessionState.working 100000 1 (some 0)

/-- Fixture: completed session. -/
def doneS : AgentSession := mkSession "omega" SessionState.completed 0 0 none

/-- Fixture: registry mixing a fresh stall, a healthy session and a
completed session. -/
def mixDisk : List DiskSession :=
  [saveSession (mkSession "m1" SessionState.working 0 0 none),
    saveSession (mkSession "m2" SessionState.working 90000 0 none),
    saveSession doneS]

/-- Fixture: registry of two legacy records — a fresh working session and
a zombie whose backend is still alive. -/
def legacyDisk : List DiskSession :=
  [mkLegacy "h1" SessionState.working 90000, mkLegacy "h2" SessionState.zombie 0]

theorem loadSession_saveSession (s : AgentSession) : loadSession (saveSession s) = s := rfl

theorem evaluateHealth_action (s : AgentSession) (a : Bool) (st z n : Nat) :
    (evaluateHealth s a st z n).action = healthAction s a st z n := rfl

theorem evaluateHealth_agentName (s : AgentSession) (a : Bool) (st z n : Nat) :
    (evaluateHealth s a st z n).agentName = s.agentName := rfl

theorem terminateSession_applyTransition (s : AgentSession) (a : HealthAction) :
    terminateSession (applyTransition s a).1 = terminateSession s := by
  unfold applyTransition
  by_cases h : transitionState s.state a = s.state
  · simp [h]
  · simp [h, terminateSession]

/-- C8: a completed session is skipped before the liveness probe: its
record is returned unchanged with no `updated` contribution, and the tick
performs no probe, no observer call and no collaborator invocation for it. -/
theorem completed_session_untouched (cfg : TickConfig) (env : TickEnv) (s : AgentSession)
    (h : s.state = SessionState.completed) :
    processSession cfg env s = (SessRes.ok s false, TickTrace.empty) := by
  simp [processSession, h]

/-- Witness for `completed_session_untouched` at the completed fixture. -/
theorem completed_session_untouched_witness :
    doneS.state = SessionState.completed ∧
      processSession plainCfg quietEnv doneS = (SessRes.ok doneS false, TickTrace.empty) :=
  ⟨rfl, completed_session_untouched plainCfg quietEnv doneS rfl⟩

/-- C9: when an exception escapes the per-session loop the tick ends
without writing the registry: the tick reports no write and the on-disk
registry is exactly the input, so every earlier in-memory mutation of the
pass is discarded. -/
theorem aborted_tick_writes_nothing (cfg : TickConfig) (env : TickEnv)
    (disk : List DiskSession) (h : (runDaemonTick cfg env disk).ok = false) :
    (runDaemonTick cfg env disk).wrote = false ∧ (runDaemonTick cfg env disk).disk = disk := by
  by_cases hc :
      ((processList cfg env (disk.map loadSession)).ok &&
        (processList cfg env (disk.map loadSession)).updated) = true
  · simp [runDaemonTick, hc] at h
  · simp [runDaemonTick, hc]

/-- Witness for `aborted_tick_writes_nothing` at the fixture whose triage
call throws. -/
theorem aborted_tick_writes_nothing_witness :
    (runDaemonTick cexCfg cexEnv cexDisk).ok = false ∧
      ((runDaemonTick cexCfg cexEnv cexDisk).wrote = false ∧
        (runDaemonTick cexCfg cexEnv cexDisk).disk = cexDisk) :=
  ⟨rfl, aborted_tick_writes_nothing cexCfg cexEnv cexDisk rfl⟩

/-- C4: for a non-completed session whose verdict action is terminate (and
whose observer call returns), the kill is attempted exactly when the probe
answered alive, and the record ends as a zombie with both escalation
fields cleared; the record counts as updated. -/
theorem terminate_verdict_processing (cfg : TickConfig) (env : TickEnv) (s : AgentSession)
    (hc : s.state ≠ SessionState.completed)
    (hobs : env.obsOk s.agentName = true)
    (ha : healthAction s (env.alive s.tmuxSession) cfg.staleMs cfg.zombieMs env.now =
      HealthAction.terminate) :
    processSession cfg env s =
      (SessRes.ok (terminateSession s) true,
        { probes := [s.tmuxSession],
          observed :=
            if cfg.hasObserver then
              [evaluateHealth s (env.alive s.tmuxSession) cfg.staleMs cfg.zombieMs env.now]
            else [],
          kills := if env.alive s.tmuxSession then [s.tmuxSession] else [],
          nudges := [], triages := [] }) := by
  simp only [processSession, if_neg hc, hobs, Bool.not_true, Bool.and_false,
    Bool.false_eq_true, if_false, evaluateHealth_action, ha,
    terminateSession_applyTransition]

/-- Witness for `terminate_verdict_processing` at a live session past the
zombie threshold: the kill is attempted. -/
theorem terminate_verdict_processing_witness :
    (silentS.state ≠ SessionState.completed ∧
      lateEnv.obsOk silentS.agentName = true ∧
      healthAction silentS (lateEnv.alive silentS.tmuxSession) obsCfg.staleMs obsCfg.zombieMs
        lateEnv.now = HealthAction.terminate) ∧
    processSession obsCfg lateEnv silentS =
      (SessRes.ok (terminateSession silentS) true,
        { probes := [silentS.tmuxSession],
          observed :=
            if obsCfg.hasObserver then
              [evaluateHealth silentS (lateEnv.alive silentS.tmuxSession) obsCfg.staleMs
                obsCfg.zombieMs lateEnv.now]
            else [],
          kills := if lateEnv.alive silentS.tmuxSession then [silentS.tmuxSession] else [],
          nudges := [], triages := [] }) :=
  ⟨⟨by decide, rfl, rfl⟩, terminate_verdict_processing obsCfg lateEnv silentS (by decide) rfl rfl⟩

theorem escalateUpdate_fields (k n : Nat) (s : AgentSession) :
    (escalateUpdate k n s).agentName = s.agentName ∧
    (escalateUpdate k n s).tmuxSession = s.tmuxSession ∧
    (escalateUpdate k n s).state = s.state ∧
    (escalateUpdate k n s).lastActivity = s.lastActivity := by
  obtain ⟨i, an, c, w, b, bi, t, st, p, pa, d, sa, la, lvl, ss⟩ := s
  cases ss <;> simp [escalateUpdate, escalateRaise, escalateInit] <;> split <;> simp

theorem terminateSession_escalateUpdate (k n : Nat) (s : AgentSession) :
    terminateSession (escalateUpdate k n s) = terminateSession s := by
  obtain ⟨i, an, c, w, b, bi, t, st, p, pa, d, sa, la, lvl, ss⟩ := s
  cases ss <;> simp [escalateUpdate, escalateRaise, escalateInit, terminateSession] <;>
    split <;> simp

theorem escalateUpdate_stalled_isSome (k n : Nat) (s : AgentSession) :
    (escalateUpdate k n s).stalledSince.isSome = true := by
  obtain ⟨i, an, c, w, b, bi, t, st, p, pa, d, sa, la, lvl, ss⟩ := s
  cases ss <;> simp [escalateUpdate, escalateRaise, escalateInit] <;> split <;> simp

theorem handleEscalate_terminated (cfg : TickConfig) (env : TickEnv) (s : AgentSession)
    (alive : Bool) (b : Bool)
    (hterm : 3 ≤ (escalateUpdate cfg.nudgeIntervalMs env.now s).escalationLevel ∨
      ((escalateUpdate cfg.nudgeIntervalMs env.now s).escalationLevel = 2 ∧
        cfg.tier1Enabled = true ∧
        env.triage s.agentName = Except.ok TriageVerdict.terminate)) :
    (handleEscalate cfg env s alive b).1 = SessRes.ok (terminateSession s) true ∧
    (handleEscalate cfg env s alive b).2.kills = (if alive then [s.tmuxSession] else []) := by
  obtain ⟨hname, htmux, _, _⟩ := escalateUpdate_fields cfg.nudgeIntervalMs env.now s
  rcases hterm with h3 | ⟨h2, ht, htr⟩
  · have hE : executeEscalationAction cfg env (escalateUpdate cfg.nudgeIntervalMs env.now s)
        alive =
        (Except.ok { terminated := true, stateChanged := true },
          { TickTrace.empty with
            kills :=
              if alive then [(escalateUpdate cfg.nudgeIntervalMs env.now s).tmuxSession]
              else [] }) := by
      unfold executeEscalationAction
      rw [if_neg (by omega), if_neg (by omega), if_neg (by omega)]
    simp only [handleEscalate, hE]
    simp [terminateSession_escalateUpdate, htmux]
  · have hE : executeEscalationAction cfg env (escalateUpdate cfg.nudgeIntervalMs env.now s)
        alive =
        (Except.ok { terminated := true, stateChanged := true },
          { TickTrace.empty with
            triages := [(escalateUpdate cfg.nudgeIntervalMs env.now s).agentName]
            kills :=
              if alive then [(escalateUpdate cfg.nudgeIntervalMs env.now s).tmuxSession]
              else [] }) := by
      unfold executeEscalationAction
      rw [if_neg (by omega), if_neg (by omega), if_pos h2, if_pos ht, hname, htr]
    simp only [handleEscalate, hE]
    simp [terminateSession_escalateUpdate, htmux]

/-- C5: under an escalate verdict, when the level after the raise step is
3 or beyond, or is 2 with triage enabled and a terminate triage verdict,
the backing session is killed exactly when the probe answered alive, and
the record ends as a zombie with both escalation fields cleared. -/
theorem escalation_termination_processing (cfg : TickConfig) (env : TickEnv) (s : AgentSession)
    (hc : s.state ≠ SessionState.completed)
    (hobs : env.obsOk s.agentName = true)
    (ha : healthAction s (env.alive s.tmuxSession) cfg.staleMs cfg.zombieMs env.now =
      HealthAction.escalate)
    (hterm : 3 ≤ (escalateUpdate cfg.nudgeIntervalMs env.now s).escalationLevel ∨
      ((escalateUpdate cfg.nudgeIntervalMs env.now s).escalationLevel = 2 ∧
        cfg.tier1Enabled = true ∧
        env.triage s.agentName = Except.ok TriageVerdict.terminate)) :
    (processSession cfg env s).1 = SessRes.ok (terminateSession s) true ∧
    (processSession cfg env s).2.kills =
      (if env.alive s.tmuxSession then [s.tmuxSession] else []) := by
  have hap : applyTransition s HealthAction.escalate = (s, false) := by
    simp [applyTransition, transitionState]
  obtain ⟨h1, h2⟩ :=
    handleEscalate_terminated cfg env s (env.alive s.tmuxSession) false hterm
  simp only [processSession, if_neg hc, hobs, Bool.not_true, Bool.and_false,
    Bool.false_eq_true, if_false, evaluateHealth_action, ha, hap]
  exact ⟨h1, by simp [TickTrace.append, h2]⟩

/-- Witness for `escalation_termination_processing` at a stalled session
whose raise step reaches level 3. -/
theorem escalation_termination_processing_witness :
    (stalledS.state ≠ SessionState.completed ∧
      levelThreeEnv.obsOk stalledS.agentName = true ∧
      healthAction stalledS (levelThreeEnv.alive stalledS.tmuxSession) obsCfg.staleMs
        obsCfg.zombieMs levelThreeEnv.now = HealthAction.escalate ∧
      3 ≤ (escalateUpdate obsCfg.nudgeIntervalMs levelThreeEnv.now stalledS).escalationLevel) ∧
    ((processSession obsCfg levelThreeEnv stalledS).1 =
        SessRes.ok (terminateSession stalledS) true ∧
      (processSession obsCfg levelThreeEnv stalledS).2.kills =
        (if levelThreeEnv.alive stalledS.tmuxSession then [stalledS.tmuxSession] else [])) :=
  ⟨⟨by decide, rfl, rfl, by decide⟩,
    escalation_termination_processing obsCfg levelThreeEnv stalledS (by decide) rfl rfl
      (Or.inl (by decide))⟩

theorem raiseStep_of_le (k t0 now level : Nat)
    (h : level ≤ min ((now - t0) / k) 3) :
    raiseStep k t0 now level = min ((now - t0) / k) 3 := by
  unfold raiseStep
  by_cases hlt : level < min ((now - t0) / k) 3
  · simp [hlt]
  · simp only [hlt, if_false]
    omega

theorem stallTarget_mono (k t0 a b : Nat) (h : a ≤ b) :
    min ((a - t0) / k) 3 ≤ min ((b - t0) / k) 3 :=
  min_le_min (Nat.div_le_div_right (Nat.sub_le_sub_right h t0)) le_rfl

theorem raise_fold (k t0 : Nat) :
    ∀ (ts : List Nat) (now level : Nat),
      List.Chain' (fun a b => a ≤ b) (ts ++ [now]) →
      level ≤ min (((ts ++ [now]).headD now - t0) / k) 3 →
      List.foldl (fun l t => raiseStep k t0 t l) level (ts ++ [now]) =
        min ((now - t0) / k) 3
  | [], now, level, _, hle => by
      simpa using raiseStep_of_le k t0 now level (by simpa using hle)
  | t :: ts, now, level, hch, hle => by
      have h1 : raiseStep k t0 t level = min ((t - t0) / k) 3 :=
        raiseStep_of_le k t0 t level (by simpa using hle)
      have hch2 : List.Chain' (fun a b => a ≤ b) (t :: (ts ++ [now])) := by simpa using hch
      have hhead : t ≤ (ts ++ [now]).headD now := by
        cases ts with
        | nil => simpa using (List.chain'_cons.mp hch2).1
        | cons a l => simpa using (List.chain'_cons.mp hch2).1
      have hle2 : raiseStep k t0 t level ≤ min (((ts ++ [now]).headD now - t0) / k) 3 := by
        rw [h1]
        exact stallTarget_mono k t0 _ _ hhead
      simpa using raise_fold k t0 ts now (raiseStep k t0 t level) hch2.tail hle2

/-- C2: for a continuously stalled session (fixed stall start, ticks at
non-decreasing times), the escalation level after the raise step of the
tick at time `now` equals `min((now - stalledSince) / nudgeIntervalMs, 3)`
— whatever the number of intermediate ticks — and that value is a
non-decreasing function of elapsed stall time. -/
theorem escalation_level_time_law (k t0 now now2 : Nat) (ts : List Nat) (hk : 0 < k)
    (hchain : List.Chain' (fun a b => a ≤ b) (t0 :: (ts ++ [now])))
    (hle : now ≤ now2) :
    raiseSeq k t0 (ts ++ [now]) = min ((now - t0) / k) 3 ∧
    min ((now - t0) / k) 3 ≤ min ((now2 - t0) / k) 3 :=
  ⟨raise_fold k t0 ts now 0 hchain.tail (Nat.zero_le _),
    stallTarget_mono k t0 now now2 hle⟩

/-- Witness for `escalation_level_time_law` on a stall that began at
30000 ms with ticks at 90000 ms and 150000 ms. -/
theorem escalation_level_time_law_witness :
    (0 < 60000 ∧
      List.Chain' (fun a b => a ≤ b) (30000 :: ([90000] ++ [150000])) ∧
      (150000 : Nat) ≤ 700000) ∧
    (raiseSeq 60000 30000 ([90000] ++ [150000]) = min ((150000 - 30000) / 60000) 3 ∧
      min (((150000 : Nat) - 30000) / 60000) 3 ≤ min ((700000 - 30000) / 60000) 3) :=
  ⟨⟨by decide, by norm_num [List.chain'_cons], by decide⟩,
    escalation_level_time_law 60000 30000 150000 700000 [90000] (by decide)
      (by norm_num [List.chain'_cons]) (by decide)⟩

theorem applyTransition_none (s : AgentSession) :
    applyTransition s HealthAction.none = (s, false) := by
  simp [applyTransition, transitionState]

theorem applyTransition_investigate (s : AgentSession) :
    applyTransition s HealthAction.investigate = (s, false) := by
  simp [applyTransition, transitionState]

theorem applyTransition_escalate (s : AgentSession) :
    applyTransition s HealthAction.escalate = (s, false) := by
  simp [applyTransition, transitionState]

theorem processSession_zombie_cleared (cfg : TickConfig) (env : TickEnv) (s : AgentSession)
    (hz : s.state = SessionState.zombie) (hst : s.stalledSince = none)
    (hob : (cfg.hasObserver && !env.obsOk s.agentName) = false) :
    (processSession cfg env s).1 = SessRes.ok s false := by
  have hc : ¬ s.state = SessionState.completed := by simp [hz]
  cases halive : env.alive s.tmuxSession
  · have hact : healthAction s (env.alive s.tmuxSession) cfg.staleMs cfg.zombieMs env.now =
        HealthAction.none := by simp [healthAction, hz, halive]
    simp only [processSession, if_neg hc, hob, Bool.false_eq_true, if_false,
      evaluateHealth_action, hact, applyTransition_none, hst]
  · have hact : healthAction s (env.alive s.tmuxSession) cfg.staleMs cfg.zombieMs env.now =
        HealthAction.investigate := by simp [healthAction, hz, halive]
    simp only [processSession, if_neg hc, hob, Bool.false_eq_true, if_false,
      evaluateHealth_action, hact, applyTransition_investigate]

theorem healthAction_congr (s s' : AgentSession) (a : Bool) (st z n : Nat)
    (h1 : s'.state = s.state) (h2 : s'.lastActivity = s.lastActivity) :
    healthAction s' a st z n = healthAction s a st z n := by
  simp [healthAction, h1, h2]

theorem raiseStep_idem (k t0 n l : Nat) :
    raiseStep k t0 n (raiseStep k t0 n l) = raiseStep k t0 n l := by
  unfold raiseStep
  by_cases h : l < min ((n - t0) / k) 3
  · simp [h]
  · simp [h]

theorem escalateUpdate_stalled (k n : Nat) (s : AgentSession) :
    (escalateUpdate k n s).stalledSince = some (s.stalledSince.getD n) := by
  obtain ⟨i, an, c, w, b, bi, t, st, p, pa, d, sa, la, lvl, ss⟩ := s
  cases ss <;> simp [escalateUpdate, escalateRaise, escalateInit] <;> split <;> simp

theorem escalateUpdate_level (k n : Nat) (s : AgentSession) :
    (escalateUpdate k n s).escalationLevel =
      raiseStep k (s.stalledSince.getD n) n
        (if s.stalledSince.isSome then s.escalationLevel else 0) := by
  obtain ⟨i, an, c, w, b, bi, t, st, p, pa, d, sa, la, lvl, ss⟩ := s
  cases ss <;> simp [escalateUpdate, escalateRaise, escalateInit] <;> split
  case _ h => simpa using h
  case _ => rfl
  case _ h => simpa using h
  case _ => rfl

theorem escalateUpdate_of_some_fixed (k n : Nat) (s : AgentSession) (t0 : Nat)
    (hstall : s.stalledSince = some t0)
    (hlvl : raiseStep k t0 n s.escalationLevel = s.escalationLevel) :
    escalateUpdate k n s = s := by
  unfold escalateUpdate escalateRaise escalateInit
  simp only [hstall]
  simp [hlvl]

theorem escalateFlags_of_some_fixed (k n : Nat) (s : AgentSession) (t0 : Nat)
    (hstall : s.stalledSince = some t0)
    (hlvl : raiseStep k t0 n s.escalationLevel = s.escalationLevel) :
    escalateFlags k n s = false := by
  unfold escalateFlags escalateRaise escalateInit
  simp only [hstall]
  simp [hlvl]

theorem escalateUpdate_idem (k n : Nat) (s : AgentSession) :
    escalateUpdate k n (escalateUpdate k n s) = escalateUpdate k n s := by
  apply escalateUpdate_of_some_fixed k n _ (s.stalledSince.getD n)
  · exact escalateUpdate_stalled k n s
  · rw [escalateUpdate_level]
    exact raiseStep_idem k (s.stalledSince.getD n) n _

theorem escalateFlags_escalateUpdate (k n : Nat) (s : AgentSession) :
    escalateFlags k n (escalateUpdate k n s) = false := by
  apply escalateFlags_of_some_fixed k n _ (s.stalledSince.getD n)
  · exact escalateUpdate_stalled k n s
  · rw [escalateUpdate_level]
    exact raiseStep_idem k (s.stalledSince.getD n) n _

theorem exec_ok_not_terminated (cfg : TickConfig) (env : TickEnv) (s : AgentSession)
    (alive : Bool) (r : ExecResult) (tr : TickTrace)
    (h : executeEscalationAction cfg env s alive = (Except.ok r, tr))
    (hnt : r.terminated = false) :
    r = { terminated := false, stateChanged := false } := by
  unfold executeEscalationAction at h
  by_cases h0 : s.escalationLevel = 0
  · rw [if_pos h0] at h
    simp only [Prod.mk.injEq, Except.ok.injEq] at h
    exact h.1.symm
  rw [if_neg h0] at h
  by_cases h1 : s.escalationLevel = 1
  · rw [if_pos h1] at h
    simp only [Prod.mk.injEq, Except.ok.injEq] at h
    exact h.1.symm
  rw [if_neg h1] at h
  by_cases h2 : s.escalationLevel = 2
  · rw [if_pos h2] at h
    by_cases ht : cfg.tier1Enabled
    · rw [if_pos ht] at h
      cases htr : env.triage s.agentName with
      | error e => rw [htr] at h; simp at h
      | ok v =>
          rw [htr] at h
          cases v with
          | retry =>
              simp only [Prod.mk.injEq, Except.ok.injEq] at h
              exact h.1.symm
          | terminate =>
              simp only [Prod.mk.injEq, Except.ok.injEq] at h
              rw [← h.1] at hnt
              simp at hnt
          | extend =>
              simp only [Prod.mk.injEq, Except.ok.injEq] at h
              exact h.1.symm
    · rw [if_neg ht] at h
      simp only [Prod.mk.injEq, Except.ok.injEq] at h
      exact h.1.symm
  · rw [if_neg h2] at h
    simp only [Prod.mk.injEq, Except.ok.injEq] at h
    rw [← h.1] at hnt
    simp at hnt

theorem processSession_none_steady (cfg : TickConfig) (env : TickEnv) (s2 : AgentSession)
    (hc : ¬ s2.state = SessionState.completed)
    (hob : (cfg.hasObserver && !env.obsOk s2.agentName) = false)
    (hact : healthAction s2 (env.alive s2.tmuxSession) cfg.staleMs cfg.zombieMs env.now =
      HealthAction.none)
    (hstall : s2.stalledSince = none) :
    (processSession cfg env s2).1 = SessRes.ok s2 false := by
  simp only [processSession, if_neg hc, hob, Bool.false_eq_true, if_false,
    evaluateHealth_action, hact, applyTransition_none, hstall]

theorem processSession_investigate_steady (cfg : TickConfig) (env : TickEnv)
    (s2 : AgentSession)
    (hc : ¬ s2.state = SessionState.completed)
    (hob : (cfg.hasObserver && !env.obsOk s2.agentName) = false)
    (hact : healthAction s2 (env.alive s2.tmuxSession) cfg.staleMs cfg.zombieMs env.now =
      HealthAction.investigate) :
    (processSession cfg env s2).1 = SessRes.ok s2 false := by
  simp only [processSession, if_neg hc, hob, Bool.false_eq_true, if_false,
    evaluateHealth_action, hact, applyTransition_investigate]

theorem processSession_escalate_steady (cfg : TickConfig) (env : TickEnv) (s2 : AgentSession)
    (hc : ¬ s2.state = SessionState.completed)
    (hob : (cfg.hasObserver && !env.obsOk s2.agentName) = false)
    (hact : healthAction s2 (env.alive s2.tmuxSession) cfg.staleMs cfg.zombieMs env.now =
      HealthAction.escalate)
    (hup : escalateUpdate cfg.nudgeIntervalMs env.now s2 = s2)
    (hflags : escalateFlags cfg.nudgeIntervalMs env.now s2 = false)
    (hexec : (executeEscalationAction cfg env s2 (env.alive s2.tmuxSession)).1 =
      Except.ok { terminated := false, stateChanged := false }) :
    (processSession cfg env s2).1 = SessRes.ok s2 false := by
  rcases hEE : executeEscalationAction cfg env s2 (env.alive s2.tmuxSession) with ⟨e, tr⟩
  rw [hEE] at hexec
  simp only at hexec
  subst hexec
  simp only [processSession, if_neg hc, hob, Bool.false_eq_true, if_false,
    evaluateHealth_action, hact, applyTransition_escalate]
  simp only [handleEscalate, hup, hEE]
  simp [hflags]

theorem processSession_stable (cfg : TickConfig) (env : TickEnv) (s s' : AgentSession)
    (u : Bool) (h : (processSession cfg env s).1 = SessRes.ok s' u) :
    (processSession cfg env s').1 = SessRes.ok s' false := by
  by_cases hc : s.state = SessionState.completed
  · have h2 : SessRes.ok s false = SessRes.ok s' u :=
      (congrArg Prod.fst (completed_session_untouched cfg env s hc)).symm.trans h
    injection h2 with e1 e2
    subst e1
    have := completed_session_untouched cfg env s hc
    exact congrArg Prod.fst this
  · by_cases hob : (cfg.hasObserver && !env.obsOk s.agentName) = true
    · have habort : (processSession cfg env s).1 = SessRes.aborted := by
        simp only [processSession, if_neg hc, hob, if_true]
      rw [habort] at h
      exact SessRes.noConfusion h
    · have hob' : (cfg.hasObserver && !env.obsOk s.agentName) = false := by
        revert hob
        cases cfg.hasObserver && !env.obsOk s.agentName <;> simp
      cases hact : healthAction s (env.alive s.tmuxSession) cfg.staleMs cfg.zombieMs env.now with
      | none =>
          cases hstall : s.stalledSince with
          | none =>
              have hfst := processSession_none_steady cfg env s hc hob' hact hstall
              have h2 : SessRes.ok s false = SessRes.ok s' u := hfst.symm.trans h
              injection h2 with e1 e2
              subst e1
              exact processSession_none_steady cfg env s hc hob' hact hstall
          | some t =>
              have hfst : (processSession cfg env s).1 =
                  SessRes.ok { s with stalledSince := none, escalationLevel := 0 } true := by
                simp only [processSession, if_neg hc, hob', Bool.false_eq_true, if_false,
                  evaluateHealth_action, hact, applyTransition_none, hstall]
              rw [hfst] at h
              injection h with e1 e2
              subst e1
              exact processSession_none_steady cfg env _ hc hob' hact rfl
      | escalate =>
          have hfst : (processSession cfg env s).1 =
              (handleEscalate cfg env s (env.alive s.tmuxSession) false).1 := by
            simp only [processSession, if_neg hc, hob', Bool.false_eq_true, if_false,
              evaluateHealth_action, hact, applyTransition_escalate]
          rw [hfst] at h
          rcases hEE : executeEscalationAction cfg env
              (escalateUpdate cfg.nudgeIntervalMs env.now s) (env.alive s.tmuxSession)
            with ⟨e, tr⟩
          simp only [handleEscalate, hEE] at h
          cases e with
          | error err => simp at h
          | ok r =>
              by_cases hrt : r.terminated = true
              · simp only [hrt, if_true] at h
                rw [terminateSession_escalateUpdate] at h
                injection h with e1 e2
                subst e1
                exact processSession_zombie_cleared cfg env _ rfl rfl hob'
              · have hr : r = { terminated := false, stateChanged := false } :=
                  exec_ok_not_terminated cfg env _ _ r tr hEE (by simpa using hrt)
                subst hr
                simp only [if_false] at h
                injection h with e1 e2
                subst e1
                obtain ⟨hname, htmux, hstate, hla⟩ :=
                  escalateUpdate_fields cfg.nudgeIntervalMs env.now s
                apply processSession_escalate_steady
                · rw [hstate]; exact hc
                · rw [hname]; exact hob'
                · rw [htmux, healthAction_congr s _ _ _ _ _ hstate hla]; exact hact
                · exact escalateUpdate_idem cfg.nudgeIntervalMs env.now s
                · exact escalateFlags_escalateUpdate cfg.nudgeIntervalMs env.now s
                · rw [htmux, hEE]
      | investigate =>
          have hfst := processSession_investigate_steady cfg env s hc hob' hact
          have h2 : SessRes.ok s false = SessRes.ok s' u := hfst.symm.trans h
          injection h2 with e1 e2
          subst e1
          exact processSession_investigate_steady cfg env s hc hob' hact
      | terminate =>
          have hfst : (processSession cfg env s).1 = SessRes.ok (terminateSession s) true := by
            simp only [processSession, if_neg hc, hob', Bool.false_eq_true, if_false,
              evaluateHealth_action, hact, terminateSession_applyTransition]
          rw [hfst] at h
          injection h with e1 e2
          subst e1
          exact processSession_zombie_cleared cfg env _ rfl rfl hob'

theorem processList_stable (cfg : TickConfig) (env : TickEnv) :
    ∀ ss : List AgentSession, (processList cfg env ss).ok = true →
      (processList cfg env (processList cfg env ss).sessions).sessions =
          (processList cfg env ss).sessions ∧
        (processList cfg env (processList cfg env ss).sessions).updated = false ∧
        (processList cfg env (processList cfg env ss).sessions).ok = true
  | [], _ => by simp [processList]
  | s :: rest, hok => by
      rcases hp : processSession cfg env s with ⟨res, tr⟩
      cases res with
      | aborted => simp [processList, hp] at hok
      | ok s1 u1 =>
          have hok2 : (processList cfg env rest).ok = true := by
            simpa [processList, hp] using hok
          obtain ⟨ih1, ih2, ih3⟩ := processList_stable cfg env rest hok2
          have hps : (processSession cfg env s).1 = SessRes.ok s1 u1 := by rw [hp]
          have hstab := processSession_stable cfg env s s1 u1 hps
          rcases hp2 : processSession cfg env s1 with ⟨res2, tr2⟩
          have hres2 : res2 = SessRes.ok s1 false := by
            rw [hp2] at hstab
            exact hstab
          subst hres2
          refine ⟨?_, ?_, ?_⟩ <;>
            simp only [processList, hp, hp2] <;>
            simp [ih1, ih2, ih3]

/-- C6: ticking twice against the same environment (same clock value, same
liveness, same collaborator behaviour) leaves the registry of the first
tick unchanged and the second tick performs no registry write; a tick
writes at most once, and only when some record was mutated. -/
theorem tick_idempotent (cfg : TickConfig) (env : TickEnv) (disk : List DiskSession)
    (hk : 0 < cfg.nudgeIntervalMs) :
    (runDaemonTick cfg env (runDaemonTick cfg env disk).disk).disk =
        (runDaemonTick cfg env disk).disk ∧
      (runDaemonTick cfg env (runDaemonTick cfg env disk).disk).wrote = false := by
  by_cases hw : ((processList cfg env (disk.map loadSession)).ok &&
      (processList cfg env (disk.map loadSession)).updated) = true
  · have hok : (processList cfg env (disk.map loadSession)).ok = true :=
      (Bool.and_eq_true _ _ |>.mp hw).1
    have hdisk1 : (runDaemonTick cfg env disk).disk =
        (processList cfg env (disk.map loadSession)).sessions.map saveSession := by
      simp [runDaemonTick, hw]
    obtain ⟨ih1, ih2, ih3⟩ := processList_stable cfg env (disk.map loadSession) hok
    have hload :
        ((processList cfg env (disk.map loadSession)).sessions.map saveSession).map
            loadSession =
          (processList cfg env (disk.map loadSession)).sessions := by
      simp [List.map_map, Function.comp_def, loadSession_saveSession]
    rw [hdisk1]
    constructor
    · simp only [runDaemonTick, hload]
      simp [ih2]
    · simp only [runDaemonTick, hload]
      simp [ih2]
  · have hd : (runDaemonTick cfg env disk).disk = disk := by
      simp [runDaemonTick, hw]
    rw [hd]
    exact ⟨hd, by simp [runDaemonTick, hw]⟩

theorem stallInv_terminateSession (s : AgentSession) :
    stallInv (terminateSession s) = true := rfl

theorem stallInv_escalateUpdate (k n : Nat) (s : AgentSession) :
    stallInv (escalateUpdate k n s) = true := by
  simp [stallInv, escalateUpdate_stalled]

theorem processSession_stallInv (cfg : TickConfig) (env : TickEnv) (s s' : AgentSession)
    (u : Bool) (h : (processSession cfg env s).1 = SessRes.ok s' u)
    (hi : stallInv s = true) : stallInv s' = true := by
  by_cases hc : s.state = SessionState.completed
  · have h2 : SessRes.ok s false = SessRes.ok s' u :=
      (congrArg Prod.fst (completed_session_untouched cfg env s hc)).symm.trans h
    injection h2 with e1 e2
    subst e1
    exact hi
  · by_cases hob : (cfg.hasObserver && !env.obsOk s.agentName) = true
    · have habort : (processSession cfg env s).1 = SessRes.aborted := by
        simp only [processSession, if_neg hc, hob, if_true]
      rw [habort] at h
      exact SessRes.noConfusion h
    · have hob' : (cfg.hasObserver && !env.obsOk s.agentName) = false := by
        revert hob
        cases cfg.hasObserver && !env.obsOk s.agentName <;> simp
      cases hact : healthAction s (env.alive s.tmuxSession) cfg.staleMs cfg.zombieMs env.now with
      | none =>
          cases hstall : s.stalledSince with
          | none =>
              have hfst := processSession_none_steady cfg env s hc hob' hact hstall
              have h2 : SessRes.ok s false = SessRes.ok s' u := hfst.symm.trans h
              injection h2 with e1 e2
              subst e1
              exact hi
          | some t =>
              have hfst : (processSession cfg env s).1 =
                  SessRes.ok { s with stalledSince := none, escalationLevel := 0 } true := by
                simp only [processSession, if_neg hc, hob', Bool.false_eq_true, if_false,
                  evaluateHealth_action, hact, applyTransition_none, hstall]
              rw [hfst] at h
              injection h with e1 e2
              subst e1
              rfl
      | escalate =>
          have hfst : (processSession cfg env s).1 =
              (handleEscalate cfg env s (env.alive s.tmuxSession) false).1 := by
            simp only [processSession, if_neg hc, hob', Bool.false_eq_true, if_false,
              evaluateHealth_action, hact, applyTransition_escalate]
          rw [hfst] at h
          rcases hEE : executeEscalationAction cfg env
              (escalateUpdate cfg.nudgeIntervalMs env.now s) (env.alive s.tmuxSession)
            with ⟨e, tr⟩
          simp only [handleEscalate, hEE] at h
          cases e with
          | error err => simp at h
          | ok r =>
              by_cases hrt : r.terminated = true
              · simp only [hrt, if_true] at h
                injection h with e1 e2
                subst e1
                exact stallInv_terminateSession _
              · have hr : r = { terminated := false, stateChanged := false } :=
                  exec_ok_not_terminated cfg env _ _ r tr hEE (by simpa using hrt)
                subst hr
                simp only [if_false] at h
                injection h with e1 e2
                subst e1
                exact stallInv_escalateUpdate cfg.nudgeIntervalMs env.now s
      | investigate =>
          have hfst := processSession_investigate_steady cfg env s hc hob' hact
          have h2 : SessRes.ok s false = SessRes.ok s' u := hfst.symm.trans h
          injection h2 with e1 e2
          subst e1
          exact hi
      | terminate =>
          have hfst : (processSession cfg env s).1 = SessRes.ok (terminateSession s) true := by
            simp only [processSession, if_neg hc, hob', Bool.false_eq_true, if_false,
              evaluateHealth_action, hact, terminateSession_applyTransition]
          rw [hfst] at h
          injection h with e1 e2
          subst e1
          exact stallInv_terminateSession _

theorem processList_stallInv (cfg : TickConfig) (env : TickEnv) :
    ∀ ss : List AgentSession, (∀ x ∈ ss, stallInv x = true) →
      ∀ y ∈ (processList cfg env ss).sessions, stallInv y = true
  | [], _ => by simp [processList]
  | s :: rest, hall => by
      rcases hp : processSession cfg env s with ⟨res, tr⟩
      cases res with
      | aborted =>
          simp only [processList, hp]
          exact hall
      | ok s1 u1 =>
          have hps : (processSession cfg env s).1 = SessRes.ok s1 u1 := by rw [hp]
          have h1 : stallInv s1 = true :=
            processSession_stallInv cfg env s s1 u1 hps (hall s (by simp))
          have hrest := processList_stallInv cfg env rest
            (fun x hx => hall x (by simp [hx]))
          intro y hy
          simp only [processList, hp, List.mem_cons] at hy
          rcases hy with rfl | hy
          · exact h1
          · exact hrest y hy

/-- C3 (amended): one half of the claimed equivalence is a preserved
invariant — after a tick, every record that satisfied "stalledSince null
implies escalation level 0" before the tick still satisfies it.  The
converse direction is refuted by `stall_iff_cex`. -/
theorem stall_null_implies_level_zero_preserved (cfg : TickConfig) (env : TickEnv)
    (disk : List DiskSession)
    (hinv : disk.all (fun d => stallInv (loadSession d)) = true) :
    (runDaemonTick cfg env disk).disk.all (fun d => stallInv (loadSession d)) = true := by
  by_cases hw : ((processList cfg env (disk.map loadSession)).ok &&
      (processList cfg env (disk.map loadSession)).updated) = true
  · have hdisk1 : (runDaemonTick cfg env disk).disk =
        (processList cfg env (disk.map loadSession)).sessions.map saveSession := by
      simp [runDaemonTick, hw]
    rw [hdisk1, List.all_eq_true]
    intro d hd
    rw [List.mem_map] at hd
    obtain ⟨y, hy, rfl⟩ := hd
    rw [loadSession_saveSession]
    refine processList_stallInv cfg env (disk.map loadSession) ?_ y hy
    intro x hx
    rw [List.mem_map] at hx
    obtain ⟨d0, hd0, rfl⟩ := hx
    exact List.all_eq_true.mp hinv d0 hd0
  · have hdisk1 : (runDaemonTick cfg env disk).disk = disk := by
      simp [runDaemonTick, hw]
    rw [hdisk1]
    exact hinv

/-- Witness for `stall_null_implies_level_zero_preserved` on a registry
satisfying the invariant. -/
theorem stall_null_implies_level_zero_preserved_witness :
    mixDisk.all (fun d => stallInv (loadSession d)) = true ∧
      (runDaemonTick obsCfg quietEnv mixDisk).disk.all
        (fun d => stallInv (loadSession d)) = true :=
  ⟨rfl, stall_null_implies_level_zero_preserved obsCfg quietEnv mixDisk rfl⟩

/-- Counterexample to C3 as stated: on the tick that starts a stall
episode, the resulting record has escalation level 0 with `stalledSince`
set, so "escalationLevel = 0 iff stalledSince = null" fails after that
tick. -/
theorem stall_iff_cex :
    (runDaemonTick plainCfg quietEnv c3Disk).disk.all
        (fun d => decide ((loadSession d).escalationLevel = 0 ↔
          (loadSession d).stalledSince = none)) = false ∧
      ((runDaemonTick plainCfg quietEnv c3Disk).disk.map
          (fun d => ((loadSession d).escalationLevel, (loadSession d).stalledSince))) =
        [(0, some 90000)] :=
  ⟨rfl, rfl⟩

theorem exec_observed (cfg : TickConfig) (env : TickEnv) (s : AgentSession) (alive : Bool) :
    (executeEscalationAction cfg env s alive).2.observed = [] := by
  unfold executeEscalationAction
  repeat' split
  all_goals rfl

theorem handleEscalate_observed (cfg : TickConfig) (env : TickEnv) (s : AgentSession)
    (alive b : Bool) : (handleEscalate cfg env s alive b).2.observed = [] := by
  rcases hE : executeEscalationAction cfg env (escalateUpdate cfg.nudgeIntervalMs env.now s)
      alive with ⟨e, tr⟩
  have htr : tr.observed = [] := by
    have := exec_observed cfg env (escalateUpdate cfg.nudgeIntervalMs env.now s) alive
    rw [hE] at this
    exact this
  cases e with
  | error err => simp [handleEscalate, hE, htr]
  | ok r =>
      by_cases hrt : r.terminated = true <;> simp [handleEscalate, hE, hrt, htr]

theorem processSession_observed (cfg : TickConfig) (env : TickEnv) (s : AgentSession)
    (hobs : cfg.hasObserver = true) :
    (processSession cfg env s).2.observed =
      (if s.state = SessionState.completed then []
        else [evaluateHealth s (env.alive s.tmuxSession) cfg.staleMs cfg.zombieMs env.now]) := by
  by_cases hc : s.state = SessionState.completed
  · simp [processSession, hc, TickTrace.empty]
  · simp only [processSession, if_neg hc, hobs, if_true, if_neg hc]
    split
    · rfl
    · split
      · rfl
      · rfl
      · simp [TickTrace.append, handleEscalate_observed]
      · split
        · rfl
        · rfl

theorem processList_observed (cfg : TickConfig) (env : TickEnv) (hobs : cfg.hasObserver = true) :
    ∀ ss : List AgentSession, (processList cfg env ss).ok = true →
      (processList cfg env ss).trace.observed = specObservedChecks cfg env ss
  | [], _ => by simp [processList, specObservedChecks, TickTrace.empty]
  | s :: rest, hok => by
      rcases hp : processSession cfg env s with ⟨res, tr⟩
      cases res with
      | aborted => simp [processList, hp] at hok
      | ok s1 u1 =>
          have hok2 : (processList cfg env rest).ok = true := by
            simpa [processList, hp] using hok
          have htr : tr.observed =
              (if s.state = SessionState.completed then []
                else [evaluateHealth s (env.alive s.tmuxSession) cfg.staleMs cfg.zombieMs
                  env.now]) := by
            have := processSession_observed cfg env s hobs
            rw [hp] at this
            exact this
          have hrest := processList_observed cfg env hobs rest hok2
          by_cases hcs : s.state = SessionState.completed <;>
            simp [processList, hp, TickTrace.append, htr, hcs, hrest, specObservedChecks,
              List.filterMap_cons]

/-- C7 (amended): in a tick that runs to completion (no exception escapes
the per-session loop), a configured observer callback is invoked exactly
once per non-completed session, in registry order, and never for a
completed session; a tick aborted mid-loop skips the callbacks of the
remaining sessions (see `observer_missed_cex`). -/
theorem observer_fires_once_per_session (cfg : TickConfig) (env : TickEnv)
    (disk : List DiskSession) (hobs : cfg.hasObserver = true)
    (hok : (runDaemonTick cfg env disk).ok = true) :
    (runDaemonTick cfg env disk).trace.observed =
      specObservedChecks cfg env (disk.map loadSession) := by
  by_cases hw : ((processList cfg env (disk.map loadSession)).ok &&
      (processList cfg env (disk.map loadSession)).updated) = true
  · have hok0 : (processList cfg env (disk.map loadSession)).ok = true :=
      (Bool.and_eq_true _ _ |>.mp hw).1
    have htr : (runDaemonTick cfg env disk).trace =
        (processList cfg env (disk.map loadSession)).trace := by
      simp [runDaemonTick, hw]
    rw [htr]
    exact processList_observed cfg env hobs (disk.map loadSession) hok0
  · have hok0 : (processList cfg env (disk.map loadSession)).ok = true := by
      have hok1 : (runDaemonTick cfg env disk).ok =
          (processList cfg env (disk.map loadSession)).ok := by
        simp [runDaemonTick, hw]
      rw [hok1] at hok
      exact hok
    have htr : (runDaemonTick cfg env disk).trace =
        (processList cfg env (disk.map loadSession)).trace := by
      simp [runDaemonTick, hw]
    rw [htr]
    exact processList_observed cfg env hobs (disk.map loadSession) hok0

/-- Witness for `observer_fires_once_per_session` on a completing tick
over a registry with two active sessions and one completed session. -/
theorem observer_fires_once_per_session_witness :
    (obsCfg.hasObserver = true ∧ (runDaemonTick obsCfg quietEnv mixDisk).ok = true) ∧
      (runDaemonTick obsCfg quietEnv mixDisk).trace.observed =
        specObservedChecks obsCfg quietEnv (mixDisk.map loadSession) :=
  ⟨⟨rfl, rfl⟩, observer_fires_once_per_session obsCfg quietEnv mixDisk rfl rfl⟩

/-- Counterexample to C7 as stated: with the observer configured and two
non-completed sessions in the registry, a triage failure on the first
session aborts the tick, so the observer fires only once instead of once
per non-completed session. -/
theorem observer_missed_cex :
    cexCfg.hasObserver = true ∧
      (specObservedChecks cexCfg cexEnv (cexDisk.map loadSession)).length = 2 ∧
      (runDaemonTick cexCfg cexEnv cexDisk).trace.observed.length = 1 :=
  ⟨rfl, rfl, rfl⟩

theorem processSession_quiet_upd (cfg : TickConfig) (env : TickEnv) (s : AgentSession)
    (hq : s.state = SessionState.completed ∨
      healthAction s (env.alive s.tmuxSession) cfg.staleMs cfg.zombieMs env.now =
        HealthAction.investigate ∨
      (healthAction s (env.alive s.tmuxSession) cfg.staleMs cfg.zombieMs env.now =
          HealthAction.none ∧ s.stalledSince = none)) :
    ∀ s' : AgentSession, ∀ u : Bool,
      (processSession cfg env s).1 = SessRes.ok s' u → u = false := by
  intro s' u h
  rcases hq with hc | hact | ⟨hact, hstall⟩
  · have h2 : SessRes.ok s false = SessRes.ok s' u :=
      (congrArg Prod.fst (completed_session_untouched cfg env s hc)).symm.trans h
    injection h2 with e1 e2
    exact e2.symm
  · by_cases hc : s.state = SessionState.completed
    · have h2 : SessRes.ok s false = SessRes.ok s' u :=
        (congrArg Prod.fst (completed_session_untouched cfg env s hc)).symm.trans h
      injection h2 with e1 e2
      exact e2.symm
    · by_cases hob : (cfg.hasObserver && !env.obsOk s.agentName) = true
      · have habort : (processSession cfg env s).1 = SessRes.aborted := by
          simp only [processSession, if_neg hc, hob, if_true]
        rw [habort] at h
        exact SessRes.noConfusion h
      · have hob' : (cfg.hasObserver && !env.obsOk s.agentName) = false := by
          revert hob
          cases cfg.hasObserver && !env.obsOk s.agentName <;> simp
        have h2 : SessRes.ok s false = SessRes.ok s' u :=
          (processSession_investigate_steady cfg env s hc hob' hact).symm.trans h
        injection h2 with e1 e2
        exact e2.symm
  · by_cases hc : s.state = SessionState.completed
    · have h2 : SessRes.ok s false = SessRes.ok s' u :=
        (congrArg Prod.fst (completed_session_untouched cfg env s hc)).symm.trans h
      injection h2 with e1 e2
      exact e2.symm
    · by_cases hob : (cfg.hasObserver && !env.obsOk s.agentName) = true
      · have habort : (processSession cfg env s).1 = SessRes.aborted := by
          simp only [processSession, if_neg hc, hob, if_true]
        rw [habort] at h
        exact SessRes.noConfusion h
      · have hob' : (cfg.hasObserver && !env.obsOk s.agentName) = false := by
          revert hob
          cases cfg.hasObserver && !env.obsOk s.agentName <;> simp
        have h2 : SessRes.ok s false = SessRes.ok s' u :=
          (processSession_none_steady cfg env s hc hob' hact hstall).symm.trans h
        injection h2 with e1 e2
        exact e2.symm

theorem processList_quiet_updated (cfg : TickConfig) (env : TickEnv) :
    ∀ ss : List AgentSession,
      (∀ x ∈ ss, x.state = SessionState.completed ∨
        healthAction x (env.alive x.tmuxSession) cfg.staleMs cfg.zombieMs env.now =
          HealthAction.investigate ∨
        (healthAction x (env.alive x.tmuxSession) cfg.staleMs cfg.zombieMs env.now =
            HealthAction.none ∧ x.stalledSince = none)) →
      (processList cfg env ss).updated = false
  | [], _ => by simp [processList]
  | s :: rest, hall => by
      rcases hp : processSession cfg env s with ⟨res, tr⟩
      cases res with
      | aborted => simp [processList, hp]
      | ok s1 u1 =>
          have hps : (processSession cfg env s).1 = SessRes.ok s1 u1 := by rw [hp]
          have hu : u1 = false :=
            processSession_quiet_upd cfg env s (hall s (by simp)) s1 u1 hps
          have hrest := processList_quiet_updated cfg env rest
            (fun x hx => hall x (by simp [hx]))
          simp [processList, hp, hu, hrest]

/-- C10: backfilling of absent escalation fields happens in memory during
load — a loaded legacy record reads as level 0 and not stalled — and does
not by itself mark the registry as updated: a tick over legacy records
whose verdicts cause no mutation (completed, investigate, or a none
verdict on a record that is not stalled) performs no write and leaves the
file in its legacy shape. -/
theorem legacy_backfill_no_write (cfg : TickConfig) (env : TickEnv) (disk : List DiskSession)
    (hleg : disk.all
      (fun d => decide (d.escalationLevel = none ∧ d.stalledSince = none)) = true)
    (hquiet : disk.all
      (fun d => decide ((loadSession d).state = SessionState.completed ∨
        healthAction (loadSession d) (env.alive (loadSession d).tmuxSession) cfg.staleMs
          cfg.zombieMs env.now = HealthAction.investigate ∨
        healthAction (loadSession d) (env.alive (loadSession d).tmuxSession) cfg.staleMs
          cfg.zombieMs env.now = HealthAction.none)) = true) :
    disk.all (fun d => decide ((loadSession d).escalationLevel = 0 ∧
        (loadSession d).stalledSince = none)) = true ∧
      (runDaemonTick cfg env disk).wrote = false ∧
      (runDaemonTick cfg env disk).disk = disk := by
  have hleg2 : ∀ d ∈ disk, d.escalationLevel = none ∧ d.stalledSince = none := by
    intro d hd
    have := List.all_eq_true.mp hleg d hd
    exact of_decide_eq_true this
  have hback : ∀ d ∈ disk, (loadSession d).escalationLevel = 0 ∧
      (loadSession d).stalledSince = none := by
    intro d hd
    obtain ⟨h1, h2⟩ := hleg2 d hd
    constructor
    · simp [loadSession, h1]
    · simp [loadSession, h2]
  have hupd : (processList cfg env (disk.map loadSession)).updated = false := by
    apply processList_quiet_updated
    intro x hx
    rw [List.mem_map] at hx
    obtain ⟨d0, hd0, rfl⟩ := hx
    have hq := of_decide_eq_true (List.all_eq_true.mp hquiet d0 hd0)
    rcases hq with h | h | h
    · exact Or.inl h
    · exact Or.inr (Or.inl h)
    · exact Or.inr (Or.inr ⟨h, (hback d0 hd0).2⟩)
  have hw : ((processList cfg env (disk.map loadSession)).ok &&
      (processList cfg env (disk.map loadSession)).updated) = false := by
    simp [hupd]
  refine ⟨?_, ?_, ?_⟩
  · rw [List.all_eq_true]
    intro d hd
    exact decide_eq_true (hback d hd)
  · simp [runDaemonTick, hw]
  · simp [runDaemonTick, hw]

/-- Witness for `legacy_backfill_no_write` on a legacy registry holding a
fresh working session and a zombie whose backend is alive. -/
theorem legacy_backfill_no_write_witness :
    (legacyDisk.all
        (fun d => decide (d.escalationLevel = none ∧ d.stalledSince = none)) = true ∧
      legacyDisk.all
        (fun d => decide ((loadSession d).state = SessionState.completed ∨
          healthAction (loadSession d) (quietEnv.alive (loadSession d).tmuxSession)
            plainCfg.staleMs plainCfg.zombieMs quietEnv.now = HealthAction.investigate ∨
          healthAction (loadSession d) (quietEnv.alive (loadSession d).tmuxSession)
            plainCfg.staleMs plainCfg.zombieMs quietEnv.now = HealthAction.none)) = true) ∧
      (legacyDisk.all (fun d => decide ((loadSession d).escalationLevel = 0 ∧
          (loadSession d).stalledSince = none)) = true ∧
        (runDaemonTick plainCfg quietEnv legacyDisk).wrote = false ∧
        (runDaemonTick plainCfg quietEnv legacyDisk).disk = legacyDisk) :=
  ⟨⟨rfl, rfl⟩, legacy_backfill_no_write plainCfg quietEnv legacyDisk rfl rfl⟩

/-- C1 (amended): kill and nudge failures are swallowed at their call
sites — the processing outcome is independent of the kill and nudge
outcome functions — but a thrown triage failure at escalation level 2
(triage enabled) is not caught at the point of use: it aborts the
processing of that session, and with it the remainder of the tick. -/
theorem triage_failure_not_swallowed (cfg : TickConfig) (env : TickEnv) (s : AgentSession)
    (f g : String → Bool)
    (hc : s.state ≠ SessionState.completed)
    (hobs : env.obsOk s.agentName = true)
    (ha : healthAction s (env.alive s.tmuxSession) cfg.staleMs cfg.zombieMs env.now =
      HealthAction.escalate)
    (hl : (escalateUpdate cfg.nudgeIntervalMs env.now s).escalationLevel = 2)
    (ht : cfg.tier1Enabled = true)
    (htr : env.triage s.agentName = Except.error ()) :
    (processSession cfg env s).1 = SessRes.aborted ∧
      processSession cfg { env with killOk := f, nudgeOk := g } s =
        processSession cfg env s := by
  obtain ⟨hname, htmux, hstate, hla⟩ := escalateUpdate_fields cfg.nudgeIntervalMs env.now s
  constructor
  · have hE : executeEscalationAction cfg env (escalateUpdate cfg.nudgeIntervalMs env.now s)
        (env.alive s.tmuxSession) =
        (Except.error (),
          { TickTrace.empty with
            triages := [(escalateUpdate cfg.nudgeIntervalMs env.now s).agentName] }) := by
      unfold executeEscalationAction
      rw [if_neg (by omega), if_neg (by omega), if_pos hl, if_pos ht, hname, htr]
    simp only [processSession, if_neg hc, hobs, Bool.not_true, Bool.and_false,
      Bool.false_eq_true, if_false, evaluateHealth_action, ha, applyTransition_escalate]
    simp only [handleEscalate, hE]
  · rfl

/-- Counterexample to C1 as stated: at the fixture registry, the triage
call for the first session (level 2, triage enabled) throws; the session's
processing aborts, the remaining session is never evaluated (only one
observer invocation for the two non-completed records), and the tick ends
without completing. -/
theorem triage_abort_cex :
    (processSession cexCfg cexEnv cexAlpha).1 = SessRes.aborted ∧
      (runDaemonTick cexCfg cexEnv cexDisk).ok = false ∧
      (cexDisk.map loadSession).length = 2 ∧
      (runDaemonTick cexCfg cexEnv cexDisk).trace.observed.length = 1 :=
  ⟨rfl, rfl, rfl, rfl⟩

/-- Witness for `triage_failure_not_swallowed` at the fixture session
whose triage call throws at level 2. -/
theorem triage_failure_not_swallowed_witness :
    (cexAlpha.state ≠ SessionState.completed ∧
      cexEnv.obsOk cexAlpha.agentName = true ∧
      healthAction cexAlpha (cexEnv.alive cexAlpha.tmuxSession) cexCfg.staleMs
        cexCfg.zombieMs cexEnv.now = HealthAction.escalate ∧
      (escalateUpdate cexCfg.nudgeIntervalMs cexEnv.now cexAlpha).escalationLevel = 2 ∧
      cexCfg.tier1Enabled = true ∧
      cexEnv.triage cexAlpha.agentName = Except.error ()) ∧
    ((processSession cexCfg cexEnv cexAlpha).1 = SessRes.aborted ∧
      processSession cexCfg
          { cexEnv with killOk := fun _ => false, nudgeOk := fun _ => false } cexAlpha =
        processSession cexCfg cexEnv cexAlpha) :=
  ⟨⟨by decide, rfl, rfl, by decide, rfl, rfl⟩,
    triage_failure_not_swallowed cexCfg cexEnv cexAlpha (fun _ => false) (fun _ => false)
      (by decide) rfl rfl (by decide) rfl rfl⟩

/-- Witness for `tick_idempotent` on a registry mixing a fresh stall (the
first tick writes), a healthy session and a completed session. -/
theorem tick_idempotent_witness :
    0 < obsCfg.nudgeIntervalMs ∧
      ((runDaemonTick obsCfg quietEnv (runDaemonTick obsCfg quietEnv mixDisk).disk).disk =
          (runDaemonTick obsCfg quietEnv mixDisk).disk ∧
        (runDaemonTick obsCfg quietEnv
            (runDaemonTick obsCfg quietEnv mixDisk).disk).wrote = false) :=
  ⟨by decide, tick_idempotent obsCfg quietEnv mixDisk (by decide)⟩
